import Mathlib

/-!
# chaselink: the redirect-chasing loop `User.Do` and the meta-refresh scan `htmlRefresh`

A shallow embedding of `chase.go`.  Go strings and byte slices are lists of
characters.  The effects of a chase (the HTTP client, the progress callback)
are state-passing functions over an arbitrary world state `σ`.  The loop of
`User.Do` has no bound of its own, so it is run with an iteration budget.

The Go standard library and `golang.org/x/net/html` are not part of the
repository.  What `User.Do` and `htmlRefresh` use of them is collected in the
record `Lib`; general theorems hold for every `Lib`, and closed examples use
the concrete instance `goLib`.
-/

namespace Chaselink

/-- Go `string` / `[]byte`. -/
abbrev Str := List Char

/-- Go `error` value, identified with its message. -/
abbrev GoError := Str

/-- The type `http.Header`: canonical key to list of values. -/
abbrev Header := List (Str × List Str)

/-- Method `Header.Get`: first value stored under the key, or the empty string. -/
def headerGet (h : Header) (key : Str) : Str :=
  match h.lookup key with
  | some (v :: _) => v
  | _ => []

/-- Method `Header.Set`: replaces the values stored under the key. -/
def headerSet (h : Header) (key value : Str) : Header :=
  (key, [value]) :: h.filter (fun kv => kv.1 != key)

/-- The fields of `*http.Request` that `User.Do` reads or writes. -/
structure Request where
  Method : Str
  URL : Str
  Proto : Str
  Header : Header
deriving DecidableEq, Repr

/-- The type `tls.ConnectionState` as read by `User.Do`: the names of version and cipher
suite, the server name, and for each peer certificate the result of
`certinfo.CertificateText`. -/
structure ConnectionState where
  Version : Str
  CipherSuite : Str
  ServerName : Str
  PeerCertificates : List (Except GoError Str)

/-- The fields of `*http.Response` that `User.Do` reads; `Body` is what
`io.ReadAll(resp.Body)` yields. -/
structure Response where
  StatusCode : Int
  Status : Str
  Proto : Str
  Header : Header
  Trailer : Chaselink.Header
  Body : Str
  Cookies : List Str
  TLS : Option ConnectionState

/-- The record `Page` of `page.go`.  `Request` (a clone of the request), `RequestCookies`
(parsed from `RequestHeader`) and the fields `User.Do` never writes (`LocalAddr`,
`RemoteAddr`, `DnsHosts`) are left out. -/
structure Page where
  RequestMethod : Str := []
  RequestUrl : Str := []
  RequestProtocol : Str := []
  RequestHeader : Header := []
  ResponseHeader : Header := []
  ResponseTrailer : Header := []
  ResponseBody : Str := []
  ResponseCookies : List Str := []
  StatusCode : Int := 0
  StatusMessage : Str := []
  Proto : Str := []
  TlsVersion : Str := []
  CipherSuite : Str := []
  TlsServerName : Str := []
  TlsCertificates : List Str := []
  Err : Option GoError := none
  DnsAddresses : List Str := []
deriving DecidableEq

/-- Token kinds of `golang.org/x/net/html`. -/
inductive TokenType
  | ErrorToken
  | TextToken
  | StartTagToken
  | EndTagToken
  | SelfClosingTagToken
  | CommentToken
  | DoctypeToken
deriving DecidableEq, Repr

/-- One token as seen through `Tokenizer.Next`, `TagName` and `TagAttr`: its kind, the
lower-cased tag name and the attributes in source order (keys lower-cased, values
unescaped). -/
structure Token where
  type : TokenType
  name : Str
  attr : List (Str × Str)
deriving DecidableEq, Repr

/-- The library functions used by `chase.go`.
* `urlParse loc`: `url.Parse(loc)` followed by `URL.String()`, `none` on a parse error;
* `parseMediaType v`: the media type returned by `mime.ParseMediaType(v)`, `none` when it
  returns an error;
* `tokenize body`: the tokens `html.NewTokenizer` yields on `body` before its first
  `ErrorToken`. -/
structure Lib where
  urlParse : Str → Option Str
  parseMediaType : Str → Option Str
  tokenize : Str → List Token

/-- Function `http.NewRequest(method, url, nil)` for a valid method: fails exactly when the URL does
not parse. -/
def NewRequest (lib : Lib) (method url : Str) : Option Request :=
  (lib.urlParse url).map fun u => { Method := method, URL := u, Proto := "HTTP/1.1".toList, Header := [] }

/-! ## htmlRefresh -/

/-- Class `\s` of Go regular expressions: `[\t\n\f\r ]`. -/
def isSpace (c : Char) : Bool :=
  c == '\t' || c == '\n' || c == '\x0c' || c == '\r' || c == ' '

/-- Class `\d` of Go regular expressions: `[0-9]`. -/
def isDigit (c : Char) : Bool :=
  '0' ≤ c && c ≤ '9'

/-- The call `regexp.MustCompile("^\s*\d+\s*;\s*(\S+)").FindStringSubmatch(content)`, reduced to
its first submatch: `none` when the expression does not match.  Every repetition is greedy
and is followed by a character outside its class, so the match is found without
backtracking. -/
def refreshMatch (content : Str) : Option Str :=
  let s1 := content.dropWhile isSpace
  let ds := s1.takeWhile isDigit
  if ds = [] then none
  else
    match (s1.dropWhile isDigit).dropWhile isSpace with
    | ';' :: s3 =>
      let t := (s3.dropWhile isSpace).takeWhile (fun c => !isSpace c)
      if t = [] then none else some t
    | _ => none

/-- The inner loop of `htmlRefresh` over `tokenizer.TagAttr()`: the last `http-equiv` and
the last `content` value win.  A tag without attributes yields one empty key, which sets
neither. -/
def tagAttrs : List (Str × Str) → Str × Str → Str × Str
  | [], acc => acc
  | (key, val) :: more, (httpEquiv, content) =>
    let httpEquiv := if key = "http-equiv".toList then val else httpEquiv
    let content := if key = "content".toList then val else content
    tagAttrs more (httpEquiv, content)

/-- Function `strings.ToLower`.  Only the comparison with `"refresh"` is made on its result, and no
rune outside `A`-`Z` lower-cases to an ASCII letter of that word. -/
def toLower (s : Str) : Str := s.map Char.toLower

/-- The token loop of `htmlRefresh`: the end of the token list is the tokenizer's
`ErrorToken`. -/
def scanTokens : List Token → Str
  | [] => []
  | tok :: rest =>
    if tok.type = TokenType.ErrorToken then []
    else if tok.type = TokenType.SelfClosingTagToken then
      if tok.name = "meta".toList then
        let (httpEquiv, content) := tagAttrs tok.attr ([], [])
        if toLower httpEquiv = "refresh".toList then
          match refreshMatch content with
          | some m => m
          | none => scanTokens rest
        else scanTokens rest
      else scanTokens rest
    else scanTokens rest

/-- Function `htmlRefresh(body)` of `chase.go`. -/
def htmlRefresh (lib : Lib) (body : Str) : Str :=
  scanTokens (lib.tokenize body)

/-! ## User.Do -/

/-- What `u.Client.Do(req)` delivers: the addresses reported to the trace hook `DnsDone`
while the request runs, and the response or the error.  The client never follows a
redirect itself (`CheckRedirect` returns `http.ErrUseLastResponse`), so an error always
comes with a nil response. -/
structure ClientResult where
  dns : List Str
  resp : Except GoError Response

/-- The configuration fields of `User`.  `Client` and `Callback` act on the world state;
`Timeout` and `Trace` only shape what the client returns and are part of `Client`. -/
structure User (σ : Type) where
  Client : σ → Request → ClientResult × σ
  UserAgent : Str
  Limit : Int
  Callback : Option (σ → Page → Option GoError × σ)

/-- How a call of `User.Do` ends: it returns an error value (`none` is `nil`), or it
panics on the nil response at `switch resp.StatusCode`. -/
inductive Outcome
  | returned (err : Option GoError)
  | nilDereference
deriving DecidableEq, Repr

/-- The variables of the loop: the request to send, `u.Current`, `u.Pages`, the world, and
(ghost) the requests handed to the client so far. -/
structure LoopState (σ : Type) where
  req : Request
  Current : Page
  Pages : List Page
  sent : List Request
  world : σ

/-- Result of one pass through the loop body. -/
inductive Step (σ : Type)
  | next (st : LoopState σ)
  | exit (st : LoopState σ) (out : Outcome)

/-- The text of the certificates as stored in `TlsCertificates`. -/
def certText : Except GoError Str → Str
  | .ok txt => txt
  | .error err => "certificate error: ".toList ++ err

/-- Lines 91-125: the Page built for a request and what the client returned for it. -/
def recordHop (req : Request) (r : ClientResult) : Page :=
  let cur : Page :=
    { RequestMethod := req.Method, RequestUrl := req.URL, RequestProtocol := req.Proto,
      RequestHeader := req.Header, DnsAddresses := r.dns }
  match r.resp with
  | .error err => { cur with Err := some err }
  | .ok resp =>
    let cur := { cur with
      ResponseBody := resp.Body, ResponseHeader := resp.Header, ResponseTrailer := resp.Trailer,
      StatusCode := resp.StatusCode, StatusMessage := resp.Status, Proto := resp.Proto,
      ResponseCookies := resp.Cookies }
    match resp.TLS with
    | none => cur
    | some tls =>
      { cur with TlsVersion := tls.Version, CipherSuite := tls.CipherSuite,
                 TlsServerName := tls.ServerName,
                 TlsCertificates := tls.PeerCertificates.map certText }

/-- The error of line 134, `fmt.Errorf("too many redirects (%d)", len(u.Pages))`. -/
def tooManyRedirects (n : Nat) : GoError :=
  "too many redirects (".toList ++ (toString n).toList ++ ")".toList

/-- Status codes of the first `case` of the switch. -/
def isRedirectStatus (code : Int) : Bool :=
  code == 301 || code == 302 || code == 307 || code == 308

/-- Lines 136-165: the `switch` on the status code, for a non-nil response.  The first
case has no `break RETRIES` after its `if`, so with an empty `Location` control leaves
the switch and the loop starts over with the same request. -/
def resolve (lib : Lib) (st : LoopState σ) (resp : Response) : Step σ :=
  if isRedirectStatus resp.StatusCode then
    let loc := headerGet resp.Header "Location".toList
    if loc ≠ [] then
      match NewRequest lib "GET".toList loc with
      | none => .exit st (.returned none)
      | some req => .next { st with req := req }
    else .next st
  else if resp.StatusCode = 200 then
    match lib.parseMediaType (headerGet resp.Header "Content-Type".toList) with
    | none => .exit st (.returned none)
    | some contentType =>
      if contentType ≠ "text/html".toList then .exit st (.returned none)
      else
        let loc := htmlRefresh lib st.Current.ResponseBody
        if loc ≠ [] then
          match NewRequest lib "GET".toList loc with
          | none => .exit st (.returned none)
          | some req => .next { st with req := req }
        else .exit st (.returned none)
  else .exit st (.returned none)

/-- Lines 88-90: the request with the configured `User-Agent` header, if any. -/
def withUserAgent (u : User σ) (req : Request) : Request :=
  if u.UserAgent ≠ [] then
    { req with Header := headerSet req.Header "User-Agent".toList u.UserAgent }
  else req

/-- The state a pass through the loop body leaves behind. -/
def Step.state : Step σ → LoopState σ
  | .next st => st
  | .exit st _ => st

/-- Lines 87-90: the request sent in the pass that starts in `st`. -/
def hopRequest (u : User σ) (st : LoopState σ) : Request :=
  withUserAgent u st.req

/-- Line 100: what `u.Client.Do(req)` returns in the pass that starts in `st`, and the
world it leaves. -/
def hopResult (u : User σ) (st : LoopState σ) : ClientResult × σ :=
  u.Client st.world (hopRequest u st)

/-- Lines 91-125: the Page recorded in the pass that starts in `st`. -/
def hopPage (u : User σ) (st : LoopState σ) : Page :=
  recordHop (hopRequest u st) (hopResult u st).1

/-- Lines 127-128: the result of the progress callback on the recorded Page (`none` when
no callback is set or it returns nil), and the world it leaves. -/
def hopCallback (u : User σ) (st : LoopState σ) : Option GoError × σ :=
  match u.Callback with
  | none => (none, (hopResult u st).2)
  | some cb => cb (hopResult u st).2 (hopPage u st)

/-- The loop variables after line 128: the Page is appended to `u.Pages` (line 126) and
the callback has run. -/
def hopState (u : User σ) (st : LoopState σ) : LoopState σ :=
  { req := hopRequest u st, Current := hopPage u st, Pages := st.Pages ++ [hopPage u st],
    sent := st.sent ++ [hopRequest u st], world := (hopCallback u st).2 }

/-- Lines 87-165: one pass through the body of the loop `RETRIES`. -/
def iteration (lib : Lib) (u : User σ) (st : LoopState σ) : Step σ :=
  let st1 := hopState u st
  match (hopCallback u st).1 with
  | some err => .exit st1 (.returned (some err))
  | none =>
    if u.Limit ≠ 0 ∧ (st1.Pages.length : Int) ≥ u.Limit then
      .exit st1 (.returned (some (tooManyRedirects st1.Pages.length)))
    else
      match (hopResult u st).1.resp with
      | .error _ => .exit st1 .nilDereference
      | .ok resp => resolve lib st1 resp

/-- The loop `RETRIES` run for at most `fuel` passes: `none` when it is still running
after them. -/
def runLoop (lib : Lib) (u : User σ) : Nat → LoopState σ → Option (LoopState σ × Outcome)
  | 0, _ => none
  | fuel + 1, st =>
    match iteration lib u st with
    | .exit st1 out => some (st1, out)
    | .next st1 => runLoop lib u fuel st1

/-- The loop variables after `n` passes, or at the exit of the loop when it comes
earlier. -/
def stateAfter (lib : Lib) (u : User σ) : Nat → LoopState σ → LoopState σ
  | 0, st => st
  | n + 1, st =>
    match iteration lib u st with
    | .exit st1 _ => st1
    | .next st1 => stateAfter lib u n st1

/-- The loop variables on entry to the loop: line 83 empties `u.Pages`; `u.Current` is
overwritten before it is read. -/
def initState (req : Request) (w : σ) : LoopState σ :=
  { req := req, Current := {}, Pages := [], sent := [], world := w }

/-- Method `User.Do(req)` of `chase.go`, started in world `w`, with a budget of loop
passes. -/
def User.Do (lib : Lib) (u : User σ) (req : Request) (w : σ) (fuel : Nat) :
    Option (LoopState σ × Outcome) :=
  runLoop lib u fuel (initState req w)

/-! ## A concrete library

`goLib` stands in for the Go libraries in closed examples.  Its tokenizer follows
`golang.org/x/net/html` on text, tags with their attributes, comments, doctypes and the
raw-text elements; character references in attribute values are left undecoded and the
escape states inside `script` are not modelled.  `goParseMediaType` follows
`mime.ParseMediaType`.  `goUrlParse` is exact on the plain URLs used below.  No general
theorem depends on what `goLib` does outside the fixed inputs of the examples. -/

/-- ASCII letters, the characters that open a tag name. -/
def isLetter (c : Char) : Bool :=
  ('a' ≤ c && c ≤ 'z') || ('A' ≤ c && c ≤ 'Z')

/-- Method `readTagName`, from the first letter of the name: the name and the input after it
(white space after the name is consumed, `/` and `>` are not); `none` at end of input. -/
def readTagName : Str → Option (Str × Str)
  | [] => none
  | c :: cs =>
    if isSpace c then some ([], cs)
    else if c == '/' || c == '>' then some ([], c :: cs)
    else (readTagName cs).map fun nr => (c :: nr.1, nr.2)

/-- Method `readTagAttrKey`: a key ends at white space or `/` (consumed) or at `=` or `>` (not
consumed); an `=` that opens the key belongs to it. -/
def readTagAttrKey : Bool → Str → Option (Str × Str)
  | _, [] => none
  | first, c :: cs =>
    if isSpace c || c == '/' then some ([], cs)
    else if (c == '=' && !first) || c == '>' then some ([], c :: cs)
    else (readTagAttrKey false cs).map fun kr => (c :: kr.1, kr.2)

/-- The quoted branch of `readTagAttrVal`: up to the closing quote. -/
def readQuoted (quote : Char) : Str → Option (Str × Str)
  | [] => none
  | c :: cs =>
    if c == quote then some ([], cs)
    else (readQuoted quote cs).map fun vr => (c :: vr.1, vr.2)

/-- The unquoted branch of `readTagAttrVal`: up to white space (consumed) or `>` (not
consumed). -/
def readUnquoted : Str → Option (Str × Str)
  | [] => none
  | c :: cs =>
    if isSpace c then some ([], cs)
    else if c == '>' then some ([], c :: cs)
    else (readUnquoted cs).map fun vr => (c :: vr.1, vr.2)

/-- Method `readTagAttrVal`: the value after an optional `=`, empty when there is none. -/
def readTagAttrVal (s : Str) : Option (Str × Str) :=
  match s.dropWhile isSpace with
  | [] => none
  | c :: r =>
    if c != '=' then some ([], c :: r)
    else
      match r.dropWhile isSpace with
      | [] => none
      | q :: r2 =>
        if q == '>' then some ([], q :: r2)
        else if q == '\'' || q == '"' then readQuoted q r2
        else readUnquoted (q :: r2)

/-- The attribute loop of `readTag`: key/value pairs up to the closing `>`; pairs with an
empty key are dropped.  Reaching the end of input anywhere makes the tag an
`ErrorToken` (`none`). -/
def readAttrs : Nat → Str → Option (List (Str × Str) × Str)
  | 0, _ => none
  | _ + 1, [] => none
  | fuel + 1, c :: cs =>
    if c == '>' then some ([], cs)
    else
      match readTagAttrKey true (c :: cs) with
      | none => none
      | some (k, r1) =>
        match readTagAttrVal r1 with
        | none => none
        | some (v, r2) =>
          match r2.dropWhile isSpace with
          | [] => none
          | r3 =>
            match readAttrs fuel r3 with
            | none => none
            | some (more, r4) => some (if k ≠ [] then (k, v) :: more else more, r4)

/-- Function `convertNewlines`: `\r\n` and `\r` become `\n`. -/
def convertNewlines : Str → Str
  | [] => []
  | '\r' :: '\n' :: cs => '\n' :: convertNewlines cs
  | '\r' :: cs => '\n' :: convertNewlines cs
  | c :: cs => c :: convertNewlines cs

/-- Method `readTag`, from the first letter of the name: name, attributes and remaining input. -/
def readTag (s : Str) : Option (Str × List (Str × Str) × Str) :=
  match readTagName s with
  | none => none
  | some (name, r1) =>
    match r1.dropWhile isSpace with
    | [] => none
    | r2 =>
      match readAttrs (r2.length + 1) r2 with
      | none => none
      | some (attrs, rest) =>
        some (toLower name, attrs.map (fun kv => (toLower kv.1, convertNewlines kv.2)), rest)

/-- The test of `readStartTag` for a self-closing tag: the character before the closing
`>` is `/`.  `raw` is the text of the tag. -/
def endsSelfClosing (raw : Str) : Bool :=
  match raw.reverse with
  | _ :: '/' :: _ => true
  | _ => false

/-- The elements after whose start tag the tokenizer reads raw text. -/
def rawTags : List Str :=
  ["iframe", "noembed", "noframes", "noscript", "plaintext", "script", "style",
   "textarea", "title", "xmp"].map String.toList

/-- Method `readUntilCloseAngle`: the input after the next `>`, or nothing. -/
def readUntilCloseAngle : Str → Str
  | [] => []
  | c :: cs => if c == '>' then cs else readUntilCloseAngle cs

/-- Method `readComment`, after `<!--`: the input after the end of the comment (`-->`, `--!>`,
or `>` right after the opening dashes). -/
def readComment : Nat → Bool → Str → Str
  | _, _, [] => []
  | dashCount, beginning, c :: cs =>
    if c == '-' then readComment (dashCount + 1) beginning cs
    else if c == '>' && (decide (2 ≤ dashCount) || beginning) then cs
    else if c == '!' && decide (2 ≤ dashCount) then
      match cs with
      | [] => []
      | '>' :: cs1 => cs1
      | '-' :: cs1 => readComment 1 false cs1
      | _ :: cs1 => readComment 0 false cs1
    else readComment 0 false cs

/-- The scan of `readRawOrRCDATA`: the input from the end tag of the raw-text element
on (`</name` followed by white space, `/` or `>`), or nothing when there is none. -/
def skipRaw (rawTag : Str) : Str → Str
  | [] => []
  | c :: cs =>
    if c == '<' && cs.head? == some '/' &&
        toLower ((cs.drop 1).take rawTag.length) == rawTag &&
        ((cs.drop (1 + rawTag.length)).head?.any fun d => isSpace d || d == '/' || d == '>')
    then c :: cs
    else skipRaw rawTag cs

/-- The text scan of `Next`: the input from the first `<` that opens a tag, a comment or
a declaration. -/
def skipText : Str → Str
  | [] => []
  | c :: cs =>
    if c == '<' && (cs.head?.any fun d => isLetter d || d == '/' || d == '!' || d == '?')
    then c :: cs
    else skipText cs

/-- A token without tag data. -/
def plainToken (t : TokenType) : Token := { type := t, name := [], attr := [] }

/-- Successive calls of `Tokenizer.Next` up to the first `ErrorToken`.  `rawTag` is the
pending raw-text element; each pass consumes input or clears `rawTag`. -/
def tokensFrom : Nat → Str → Str → List Token
  | 0, _, _ => []
  | _ + 1, _, [] => []
  | fuel + 1, rawTag, c :: cs =>
    let s := c :: cs
    let afterRaw := if rawTag = "plaintext".toList then [] else skipRaw rawTag s
    if rawTag ≠ [] ∧ afterRaw.length < s.length then
      plainToken .TextToken :: tokensFrom fuel [] afterRaw
    else
      let afterText := skipText s
      if afterText.length < s.length then
        plainToken .TextToken :: tokensFrom fuel [] afterText
      else
        match cs with
        | [] => [plainToken .TextToken]
        | '/' :: [] => [plainToken .TextToken]
        | '/' :: '>' :: r => plainToken .CommentToken :: tokensFrom fuel [] r
        | '/' :: d :: r =>
          if isLetter d then
            match readTag (d :: r) with
            | none => []
            | some (name, _, rest) =>
              { type := .EndTagToken, name := name, attr := [] } :: tokensFrom fuel [] rest
          else plainToken .CommentToken :: tokensFrom fuel [] (readUntilCloseAngle (d :: r))
        | '!' :: '-' :: '-' :: r =>
          plainToken .CommentToken :: tokensFrom fuel [] (readComment 0 true r)
        | '!' :: r =>
          if toLower (r.take 7) = "doctype".toList then
            plainToken .DoctypeToken :: tokensFrom fuel [] (readUntilCloseAngle (r.drop 7))
          else plainToken .CommentToken :: tokensFrom fuel [] (readUntilCloseAngle r)
        | '?' :: r => plainToken .CommentToken :: tokensFrom fuel [] (readUntilCloseAngle ('?' :: r))
        | d :: r =>
          if isLetter d then
            match readTag (d :: r) with
            | none => []
            | some (name, attrs, rest) =>
              let raw := (d :: r).take ((d :: r).length - rest.length)
              let type := if endsSelfClosing raw then TokenType.SelfClosingTagToken
                          else TokenType.StartTagToken
              { type := type, name := name, attr := attrs } ::
                tokensFrom fuel (if name ∈ rawTags then name else []) rest
          else [plainToken .TextToken]

/-- The tokens `html.NewTokenizer(bytes.NewReader(body))` yields. -/
def goTokenize (body : Str) : List Token :=
  tokensFrom (2 * body.length + 2) [] body

/-- Stand-in for `url.Parse` and `URL.String`: a URL with an ASCII control character is
rejected, any other is taken as it is written. -/
def goUrlParse (s : Str) : Option Str :=
  if s.any (fun c => decide (c.toNat < 0x20) || c.toNat == 0x7f) then none else some s

/-- Function `unicode.IsSpace`, the white space that `strings.TrimSpace` removes. -/
def isUnicodeSpace (c : Char) : Bool :=
  (0x09 ≤ c.toNat && c.toNat ≤ 0x0d) || c.toNat == 0x20 || c.toNat == 0x85 ||
  c.toNat == 0xa0 || c.toNat == 0x1680 || (0x2000 ≤ c.toNat && c.toNat ≤ 0x200a) ||
  c.toNat == 0x2028 || c.toNat == 0x2029 || c.toNat == 0x202f || c.toNat == 0x205f ||
  c.toNat == 0x3000

/-- Function `strings.TrimSpace`. -/
def trimSpace (s : Str) : Str :=
  ((s.dropWhile isUnicodeSpace).reverse.dropWhile isUnicodeSpace).reverse

/-- Function `unicode.ToLower` as far as the media type needs it: the Kelvin sign and the
dotted capital I are the runes outside ASCII whose lower case is an ASCII letter; any
other rune outside ASCII stays outside ASCII and fails the token test. -/
def lowerRune (c : Char) : Char :=
  if c.toNat == 0x212a then 'k' else if c.toNat == 0x130 then 'i' else c.toLower

/-- Function `isTSpecial` of package `mime`: the separators of RFC 2045. -/
def isTSpecial (c : Char) : Bool :=
  c == '(' || c == ')' || c == '<' || c == '>' || c == '@' || c == ',' || c == ';' ||
  c == ':' || c == '\\' || c == '"' || c == '/' || c == '[' || c == ']' || c == '?' ||
  c == '='

/-- Function `isTokenChar` of package `mime`. -/
def isTokenChar (c : Char) : Bool :=
  0x20 < c.toNat && c.toNat < 0x7f && !isTSpecial c

/-- Function `checkMediaTypeDisposition`: a token, or a token, a slash and a token. -/
def checkMediaTypeDisposition (s : Str) : Bool :=
  if s.takeWhile isTokenChar = [] then false
  else
    match s.dropWhile isTokenChar with
    | [] => true
    | '/' :: sub => !(sub.takeWhile isTokenChar).isEmpty && (sub.dropWhile isTokenChar).isEmpty
    | _ => false

/-- The quoted-string branch of `consumeValue`, after the opening quote: the value and
the input after the closing quote; `none` at a line break or without closing quote.  A
backslash before a separator is dropped. -/
def consumeQuoted : Str → Option (Str × Str)
  | [] => none
  | '"' :: cs => some ([], cs)
  | '\\' :: d :: ds =>
    if isTSpecial d then (consumeQuoted ds).map fun p => (d :: p.1, p.2)
    else (consumeQuoted (d :: ds)).map fun p => ('\\' :: p.1, p.2)
  | c :: cs =>
    if c == '\r' || c == '\n' then none
    else (consumeQuoted cs).map fun p => (c :: p.1, p.2)

/-- Function `consumeMediaParam`: a parameter `; key = value` at the head of the input,
with the input after it; `none` when there is none (the Go function then returns an empty
key). -/
def consumeMediaParam (v : Str) : Option (Str × Str × Str) :=
  match v.dropWhile isUnicodeSpace with
  | ';' :: r =>
    let r1 := r.dropWhile isUnicodeSpace
    let param := (r1.takeWhile isTokenChar).map Char.toLower
    if param = [] then none
    else
      match (r1.dropWhile isTokenChar).dropWhile isUnicodeSpace with
      | '=' :: r2 =>
        match r2.dropWhile isUnicodeSpace with
        | [] => none
        | '"' :: q => (consumeQuoted q).map fun p => (param, p.1, p.2)
        | r3 =>
          if r3.takeWhile isTokenChar = [] then none
          else some (param, r3.takeWhile isTokenChar, r3.dropWhile isTokenChar)
      | _ => none
  | _ => none

/-- The parameter loop of `mime.ParseMediaType`: `true` when it ends without error.  A
text that is no parameter is an error unless it is a lone trailing semicolon; a repeated
parameter name is an error unless the values agree.  `seen` holds the parameters read so
far; each pass consumes a semicolon. -/
def mediaParams : Nat → Str → List (Str × Str) → Bool
  | 0, _, _ => false
  | fuel + 1, v, seen =>
    match v.dropWhile isUnicodeSpace with
    | [] => true
    | v1 =>
      match consumeMediaParam v1 with
      | none => trimSpace v1 == [';']
      | some (key, value, tail) =>
        if seen.any (fun kv => kv.1 == key && kv.2 != value) then false
        else mediaParams fuel tail ((key, value) :: seen)

/-- Function `mime.ParseMediaType`, reduced to the media type it returns: `none` when it
returns an error (no media type, a malformed media type, a malformed or conflicting
parameter). -/
def goParseMediaType (v : Str) : Option Str :=
  let base := v.takeWhile (fun c => c != ';')
  let mediatype := trimSpace (base.map lowerRune)
  if checkMediaTypeDisposition mediatype && mediaParams (v.length + 1) (v.drop base.length) []
  then some mediatype else none

/-- The concrete library of the closed examples. -/
def goLib : Lib :=
  { urlParse := goUrlParse, parseMediaType := goParseMediaType, tokenize := goTokenize }

/-! ## Example chases -/

/-- The request `http.NewRequest(http.MethodGet, url, nil)` of `main.go`. -/
def getRequest (url : Str) : Request :=
  { Method := "GET".toList, URL := url, Proto := "HTTP/1.1".toList, Header := [] }

/-- A response with the given status code, headers and body, received without TLS. -/
def plainResponse (code : Int) (header : Header) (body : Str) : Response :=
  { StatusCode := code, Status := [], Proto := "HTTP/1.1".toList, Header := header,
    Trailer := [], Body := body, Cookies := [], TLS := none }

/-- A user without callback and without `User-Agent` override, over a transport that
keeps no state. -/
def plainUser (client : Request → Except GoError Response) (limit : Int) : User Unit :=
  { Client := fun w req => ({ dns := [], resp := client req }, w),
    UserAgent := [], Limit := limit, Callback := none }

/-- A server that answers every request with a 302 without `Location` header. -/
def bareRedirect : Request → Except GoError Response :=
  fun _ => .ok (plainResponse 302 [] [])

/-- A server that answers every request with a 302 to `http://example.com/loop`. -/
def endlessRedirect : Request → Except GoError Response :=
  fun _ => .ok (plainResponse 302 [("Location".toList, ["http://example.com/loop".toList])] [])

/-- A server that redirects `http://example.com/a` to `http://example.com/b`, which
cannot be reached. -/
def failingSecondHop : Request → Except GoError Response :=
  fun req =>
    if req.URL = "http://example.com/a".toList then
      .ok (plainResponse 302 [("Location".toList, ["http://example.com/b".toList])] [])
    else .error "dial tcp: connection refused".toList

/-- A server that answers every request with a 200 `text/html` page. -/
def htmlPage (body : Str) : Request → Except GoError Response :=
  fun _ => .ok (plainResponse 200 [("Content-Type".toList, ["text/html".toList])] body)

/-- A server that answers `http://example.com/a` with a 301 to `/relative`; a request
without scheme and host is refused by the client. -/
def relativeRedirect : Request → Except GoError Response :=
  fun req =>
    if req.URL = "http://example.com/a".toList then
      .ok (plainResponse 301 [("Location".toList, ["/relative".toList])] [])
    else .error "unsupported protocol scheme".toList

/-- A progress callback that keeps no state and fails with `err` on every Page. -/
def abortingUser (client : Request → Except GoError Response) (limit : Int) (err : GoError) :
    User Unit :=
  { plainUser client limit with Callback := some fun w _ => (some err, w) }

/-- The meta element of the specification's example, written without trailing slash. -/
def metaOpen : Str :=
  "<meta http-equiv=\"refresh\" content=\"0; http://example.com/next\">".toList

/-- The same meta element written as a self-closing tag. -/
def metaSelfClosing : Str :=
  "<meta http-equiv=\"refresh\" content=\"0; http://example.com/next\"/>".toList

/-- A self-closing `meta` token with the given attributes. -/
def metaToken (attrs : List (Str × Str)) : Token :=
  { type := .SelfClosingTagToken, name := "meta".toList, attr := attrs }

/-- The form of a refresh `content` value in the words of the specification: optional
white space, one or more digits, optional white space, a semicolon, optional white space,
then the non-empty run `t` of characters that are not white space, which ends the value
or is followed by white space and more text. -/
def RefreshForm (content t : Str) : Prop :=
  ∃ w1 ds w2 w3 more : Str,
    content = w1 ++ ds ++ w2 ++ [';'] ++ w3 ++ t ++ more ∧
    (∀ c ∈ w1, isSpace c = true) ∧ ds ≠ [] ∧ (∀ c ∈ ds, isDigit c = true) ∧
    (∀ c ∈ w2, isSpace c = true) ∧ (∀ c ∈ w3, isSpace c = true) ∧
    t ≠ [] ∧ (∀ c ∈ t, isSpace c = false) ∧
    (∀ c ∈ more.head?, isSpace c = true)

/-- A server that answers every request with a 404 that carries a `Location` header and
an HTML body with a meta refresh. -/
def notFound : Request → Except GoError Response :=
  fun _ => .ok (plainResponse 404
    [("Location".toList, ["http://example.com/b".toList]),
     ("Content-Type".toList, ["text/html".toList])] metaSelfClosing)

/-- A self-closing meta element written in mixed case, with blanks around the delay and
text after the target. -/
def metaMixedCase : Str :=
  "<META HTTP-EQUIV=\"Refresh\" CONTENT=\" 5 ; /next/page  now\"/>".toList

/-! # Theorems -/

variable {σ : Type}

/-! ## One pass through the loop body -/

theorem resolve_state (lib : Lib) (st : LoopState σ) (resp : Response) :
    (resolve lib st resp).state.Pages = st.Pages ∧ (resolve lib st resp).state.sent = st.sent := by
  unfold resolve
  dsimp only
  repeat' split
  all_goals simp [Step.state]

theorem iteration_abort (lib : Lib) (u : User σ) (st : LoopState σ) (e : GoError)
    (h : (hopCallback u st).1 = some e) :
    iteration lib u st = .exit (hopState u st) (.returned (some e)) := by
  simp [iteration, h]

theorem limit_open {u : User σ} {st : LoopState σ}
    (hl : u.Limit = 0 ∨ (st.Pages.length : Int) + 1 < u.Limit) :
    ¬ (u.Limit ≠ 0 ∧ u.Limit ≤ (st.Pages.length : Int) + 1) := by
  rintro ⟨h0, h1⟩
  rcases hl with hl | hl
  · exact h0 hl
  · omega

theorem limit_open_of_not {u : User σ} {st : LoopState σ}
    (hl : ¬ (u.Limit ≠ 0 ∧ u.Limit ≤ (st.Pages.length : Int) + 1)) :
    u.Limit = 0 ∨ (st.Pages.length : Int) + 1 < u.Limit := by
  by_cases h0 : u.Limit = 0
  · exact Or.inl h0
  · right
    by_contra hh
    exact hl ⟨h0, by omega⟩

theorem iteration_limit (lib : Lib) (u : User σ) (st : LoopState σ)
    (h : (hopCallback u st).1 = none) (h0 : u.Limit ≠ 0)
    (hl : u.Limit ≤ (st.Pages.length : Int) + 1) :
    iteration lib u st =
      .exit (hopState u st) (.returned (some (tooManyRedirects (st.Pages.length + 1)))) := by
  simp [iteration, h, hopState, h0, hl]

theorem iteration_error (lib : Lib) (u : User σ) (st : LoopState σ) (e : GoError)
    (h : (hopCallback u st).1 = none) (hl : u.Limit = 0 ∨ (st.Pages.length : Int) + 1 < u.Limit)
    (hr : (hopResult u st).1.resp = .error e) :
    iteration lib u st = .exit (hopState u st) .nilDereference := by
  simp [iteration, h, hopState, hr, limit_open hl]

theorem iteration_ok (lib : Lib) (u : User σ) (st : LoopState σ) (resp : Response)
    (h : (hopCallback u st).1 = none) (hl : u.Limit = 0 ∨ (st.Pages.length : Int) + 1 < u.Limit)
    (hr : (hopResult u st).1.resp = .ok resp) :
    iteration lib u st = resolve lib (hopState u st) resp := by
  simp [iteration, h, hopState, hr, limit_open hl]

theorem iteration_state (lib : Lib) (u : User σ) (st : LoopState σ) :
    (iteration lib u st).state.Pages = st.Pages ++ [hopPage u st] ∧
    (iteration lib u st).state.sent = st.sent ++ [hopRequest u st] := by
  cases hcb : (hopCallback u st).1 with
  | some e => rw [iteration_abort lib u st e hcb]; simp [Step.state, hopState]
  | none =>
    by_cases hl : u.Limit ≠ 0 ∧ u.Limit ≤ (st.Pages.length : Int) + 1
    · rw [iteration_limit lib u st hcb hl.1 hl.2]; simp [Step.state, hopState]
    · have hl1 := limit_open_of_not hl
      cases hr : (hopResult u st).1.resp with
      | error e => rw [iteration_error lib u st e hcb hl1 hr]; simp [Step.state, hopState]
      | ok resp =>
        rw [iteration_ok lib u st resp hcb hl1 hr]
        simpa [hopState] using resolve_state lib (hopState u st) resp

theorem iteration_next_limit (lib : Lib) (u : User σ) (st st1 : LoopState σ)
    (h : iteration lib u st = .next st1) :
    u.Limit = 0 ∨ (st.Pages.length : Int) + 1 < u.Limit := by
  cases hcb : (hopCallback u st).1 with
  | some e => rw [iteration_abort lib u st e hcb] at h; cases h
  | none =>
    by_cases hl : u.Limit ≠ 0 ∧ u.Limit ≤ (st.Pages.length : Int) + 1
    · rw [iteration_limit lib u st hcb hl.1 hl.2] at h; cases h
    · exact limit_open_of_not hl

theorem hopCallback_quiet (u : User σ) (st : LoopState σ)
    (hcb : ∀ cb, u.Callback = some cb → ∀ w p, (cb w p).1 = none) :
    (hopCallback u st).1 = none := by
  unfold hopCallback
  cases h : u.Callback with
  | none => rfl
  | some cb => exact hcb cb h _ _

theorem resolve_redirect (lib : Lib) (st : LoopState σ) (resp : Response) (target : Str)
    (hs : isRedirectStatus resp.StatusCode = true)
    (hloc : headerGet resp.Header "Location".toList ≠ [])
    (hp : lib.urlParse (headerGet resp.Header "Location".toList) = some target) :
    resolve lib st resp =
      .next { st with req := { Method := "GET".toList, URL := target,
                               Proto := "HTTP/1.1".toList, Header := [] } } := by
  unfold resolve NewRequest
  rw [if_pos hs]
  simp only [hloc, ne_eq, not_false_eq_true, if_true, hp, Option.map_some']

theorem resolve_redirect_empty (lib : Lib) (st : LoopState σ) (resp : Response)
    (hs : isRedirectStatus resp.StatusCode = true)
    (hloc : headerGet resp.Header "Location".toList = []) :
    resolve lib st resp = .next st := by
  unfold resolve
  rw [if_pos hs]
  simp only [hloc, ne_eq, not_true_eq_false, if_false]

theorem resolve_other (lib : Lib) (st : LoopState σ) (resp : Response)
    (hs : isRedirectStatus resp.StatusCode = false) (h200 : resp.StatusCode ≠ 200) :
    resolve lib st resp = .exit st (.returned none) := by
  simp [resolve, hs, h200]

theorem runLoop_exit (lib : Lib) (u : User σ) (st st1 : LoopState σ) (out : Outcome) (fuel : Nat)
    (h : iteration lib u st = .exit st1 out) :
    runLoop lib u (fuel + 1) st = some (st1, out) := by
  simp [runLoop, h]

theorem runLoop_next (lib : Lib) (u : User σ) (st st1 : LoopState σ) (fuel : Nat)
    (h : iteration lib u st = .next st1) :
    runLoop lib u (fuel + 1) st = runLoop lib u fuel st1 := by
  simp [runLoop, h]

/-! ## Endless redirects -/

/-- With a quiet callback and a transport that only answers with followable redirects,
the loop started with `d` passes to go before the limit `L` exits on the limit. -/
theorem runLoop_redirects (lib : Lib) (u : User σ) (L : Nat) (hLim : u.Limit = (L : Int))
    (hcb : ∀ cb, u.Callback = some cb → ∀ w p, (cb w p).1 = none)
    (htr : ∀ w r, ∃ resp, (u.Client w r).1.resp = .ok resp ∧
      isRedirectStatus resp.StatusCode = true ∧
      headerGet resp.Header "Location".toList ≠ [] ∧
      lib.urlParse (headerGet resp.Header "Location".toList) ≠ none) :
    ∀ (d : Nat) (st : LoopState σ), st.Pages.length + (d + 1) = L →
      ∀ fuel, d + 1 ≤ fuel → ∃ st1, runLoop lib u fuel st =
          some (st1, .returned (some (tooManyRedirects L))) ∧
        st1.Pages.length = L ∧ st1.sent.length = st.sent.length + (d + 1) := by
  intro d
  induction d with
  | zero =>
    intro st hst fuel hf
    obtain ⟨f, rfl⟩ : ∃ f, fuel = f + 1 := ⟨fuel - 1, by omega⟩
    have h0 : u.Limit ≠ 0 := by rw [hLim]; omega
    have hl : u.Limit ≤ (st.Pages.length : Int) + 1 := by rw [hLim]; omega
    refine ⟨hopState u st, ?_, ?_, ?_⟩
    · rw [runLoop_exit lib u st _ _ f (iteration_limit lib u st (hopCallback_quiet u st hcb) h0 hl)]
      have : st.Pages.length + 1 = L := by omega
      rw [this]
    · simp [hopState]; omega
    · simp [hopState]
  | succ d ih =>
    intro st hst fuel hf
    obtain ⟨f, rfl⟩ : ∃ f, fuel = f + 1 := ⟨fuel - 1, by omega⟩
    obtain ⟨resp, hr, hs, hloc, hp⟩ := htr st.world (hopRequest u st)
    obtain ⟨target, ht⟩ := Option.ne_none_iff_exists'.mp hp
    have hl : u.Limit = 0 ∨ (st.Pages.length : Int) + 1 < u.Limit := by
      right; rw [hLim]; omega
    have hit := iteration_ok lib u st resp (hopCallback_quiet u st hcb) hl hr
    rw [resolve_redirect lib _ resp target hs hloc ht] at hit
    rw [runLoop_next lib u st _ f hit]
    have hlen : (hopState u st).Pages.length + (d + 1) = L := by
      simp only [hopState, List.length_append, List.length_singleton]
      omega
    obtain ⟨st1, h1, h2, h3⟩ :=
      ih { hopState u st with req := { Method := "GET".toList, URL := target,
                                       Proto := "HTTP/1.1".toList, Header := [] } }
        hlen f (by omega)
    refine ⟨st1, h1, h2, ?_⟩
    rw [h3]
    simp only [hopState, List.length_append, List.length_singleton]
    omega

/-! ## Claims about the loop -/

/-- C1. For every hop limit `L > 0`, with no callback or one that always returns nil,
when the transport answers every request with a 302 carrying a non-empty `Location`
that parses, `User.Do` terminates (any budget of at least `L` passes is enough), returns
the "too many redirects" error and leaves exactly `L` Pages, having sent `L`
requests. -/
theorem C1_endless_redirects_reach_limit (lib : Lib) (u : User σ) (req : Request) (w : σ)
    (L : Nat) (hL : 0 < L) (hLim : u.Limit = (L : Int))
    (hcb : ∀ cb, u.Callback = some cb → ∀ w p, (cb w p).1 = none)
    (htr : ∀ w r, ∃ resp, (u.Client w r).1.resp = .ok resp ∧ resp.StatusCode = 302 ∧
      headerGet resp.Header "Location".toList ≠ [] ∧
      lib.urlParse (headerGet resp.Header "Location".toList) ≠ none)
    (fuel : Nat) (hfuel : L ≤ fuel) :
    ∃ st, User.Do lib u req w fuel = some (st, .returned (some (tooManyRedirects L))) ∧
      st.Pages.length = L ∧ st.sent.length = L := by
  obtain ⟨d, rfl⟩ : ∃ d, L = d + 1 := ⟨L - 1, by omega⟩
  have htr1 : ∀ w r, ∃ resp, (u.Client w r).1.resp = .ok resp ∧
      isRedirectStatus resp.StatusCode = true ∧
      headerGet resp.Header "Location".toList ≠ [] ∧
      lib.urlParse (headerGet resp.Header "Location".toList) ≠ none := by
    intro w r
    obtain ⟨resp, h1, h2, h3, h4⟩ := htr w r
    exact ⟨resp, h1, by rw [h2]; rfl, h3, h4⟩
  obtain ⟨st, h1, h2, h3⟩ :=
    runLoop_redirects lib u (d + 1) hLim hcb htr1 d (initState req w) (by simp [initState])
      fuel hfuel
  exact ⟨st, h1, h2, by simpa [initState] using h3⟩

/-- C1, at a server redirecting for ever and limit 3. -/
theorem C1_endless_redirects_reach_limit_witness :
    ∃ st, User.Do goLib (plainUser endlessRedirect 3) (getRequest "http://example.com/".toList) () 3 =
        some (st, .returned (some (tooManyRedirects 3))) ∧
      st.Pages.length = 3 ∧ st.sent.length = 3 :=
  C1_endless_redirects_reach_limit goLib (plainUser endlessRedirect 3)
    (getRequest "http://example.com/".toList) () 3 (by decide) rfl
    (by intro cb h; cases h)
    (by intro w r; exact ⟨_, rfl, rfl, by decide, by decide⟩) 3 (le_refl 3)

/-- C6. When the progress callback returns a non-nil error `e` for the Page of the first
hop, then for every outcome of that hop and every hop limit `User.Do` returns exactly
`e`, `u.Pages` holds exactly one Page and only the first request has been sent. -/
theorem C6_callback_abort_first_hop (lib : Lib) (u : User σ) (req : Request) (w : σ)
    (cb : σ → Page → Option GoError × σ) (e : GoError) (hcb : u.Callback = some cb)
    (he : (cb (u.Client w (withUserAgent u req)).2
            (recordHop (withUserAgent u req) (u.Client w (withUserAgent u req)).1)).1 = some e)
    (fuel : Nat) :
    ∃ st, User.Do lib u req w (fuel + 1) = some (st, .returned (some e)) ∧
      st.Pages.length = 1 ∧ st.sent = [withUserAgent u req] := by
  have h : (hopCallback u (initState req w)).1 = some e := by
    simp only [hopCallback, hcb, hopResult, hopPage, hopRequest, initState]
    exact he
  refine ⟨hopState u (initState req w), ?_, ?_, ?_⟩
  · exact runLoop_exit lib u _ _ _ fuel (iteration_abort lib u _ e h)
  · simp [hopState, initState]
  · simp [hopState, initState, hopRequest]

/-- C6, at a callback that always fails, a transport error on the first hop and
limit 1. -/
theorem C6_callback_abort_first_hop_witness :
    ∃ st, User.Do goLib (abortingUser (fun _ => .error "no route to host".toList) 1 "stop".toList)
        (getRequest "http://example.com/".toList) () 1 =
          some (st, .returned (some "stop".toList)) ∧
      st.Pages.length = 1 ∧
      st.sent = [withUserAgent (abortingUser (fun _ => .error "no route to host".toList) 1
        "stop".toList) (getRequest "http://example.com/".toList)] :=
  C6_callback_abort_first_hop goLib
    (abortingUser (fun _ => .error "no route to host".toList) 1 "stop".toList)
    (getRequest "http://example.com/".toList) () (fun w _ => (some "stop".toList, w))
    "stop".toList rfl rfl 0

/-- C8. In every pass of the loop in which the client returns a response whose status
code is none of 200, 301, 302, 307, 308, the callback does not abort and the hop limit
is not reached, `User.Do` returns nil right after recording that Page: whatever the
headers and the body, the loop ends with the Page appended and no request sent after the
one of this pass. -/
theorem C8_other_status_terminal (lib : Lib) (u : User σ) (st : LoopState σ) (resp : Response)
    (hr : (hopResult u st).1.resp = .ok resp)
    (hcode : resp.StatusCode ≠ 200 ∧ resp.StatusCode ≠ 301 ∧ resp.StatusCode ≠ 302 ∧
      resp.StatusCode ≠ 307 ∧ resp.StatusCode ≠ 308)
    (hcb : (hopCallback u st).1 = none)
    (hl : u.Limit = 0 ∨ (st.Pages.length : Int) + 1 < u.Limit) (fuel : Nat) :
    ∃ st1, runLoop lib u (fuel + 1) st = some (st1, .returned none) ∧
      st1.Pages = st.Pages ++ [hopPage u st] ∧ st1.sent = st.sent ++ [hopRequest u st] := by
  obtain ⟨h200, h301, h302, h307, h308⟩ := hcode
  have hs : isRedirectStatus resp.StatusCode = false := by
    simp [isRedirectStatus, h301, h302, h307, h308]
  refine ⟨hopState u st, ?_, rfl, rfl⟩
  apply runLoop_exit
  rw [iteration_ok lib u st resp hcb hl hr, resolve_other lib _ resp hs h200]

/-- C8, at a 404 response that carries a `Location` header and a meta refresh. -/
theorem C8_other_status_terminal_witness :
    ∃ st1, runLoop goLib (plainUser notFound 10) 1
        (initState (getRequest "http://example.com/a".toList) ()) = some (st1, .returned none) ∧
      st1.Pages = [] ++ [hopPage (plainUser notFound 10)
          (initState (getRequest "http://example.com/a".toList) ())] ∧
      st1.sent = [] ++ [hopRequest (plainUser notFound 10)
          (initState (getRequest "http://example.com/a".toList) ())] :=
  C8_other_status_terminal goLib (plainUser notFound 10)
    (initState (getRequest "http://example.com/a".toList) ())
    (plainResponse 404
      [("Location".toList, ["http://example.com/b".toList]),
       ("Content-Type".toList, ["text/html".toList])] metaSelfClosing)
    rfl (by decide) rfl (Or.inr (by decide)) 0

/-! ## The bound on the number of passes -/

/-- Below a positive limit `L` the Pages and the requests sent stay within `L`. -/
theorem stateAfter_bound (lib : Lib) (u : User σ) (L : Nat) (hL : 0 < L)
    (hLim : u.Limit = (L : Int)) :
    ∀ (n : Nat) (st : LoopState σ), st.Pages.length < L → st.sent.length = st.Pages.length →
      (stateAfter lib u n st).Pages.length ≤ L ∧
      (stateAfter lib u n st).sent.length = (stateAfter lib u n st).Pages.length := by
  intro n
  induction n with
  | zero =>
    intro st h1 h2
    exact ⟨by simpa [stateAfter] using h1.le, by simpa [stateAfter] using h2⟩
  | succ n ih =>
    intro st h1 h2
    have hst := iteration_state lib u st
    cases hit : iteration lib u st with
    | exit st1 out =>
      rw [hit] at hst
      simp only [Step.state] at hst
      simp only [stateAfter, hit, hst.1, hst.2, List.length_append, List.length_singleton]
      omega
    | next st1 =>
      have hopen := iteration_next_limit lib u st st1 hit
      rw [hit] at hst
      simp only [Step.state] at hst
      have hlt : st1.Pages.length < L := by
        rw [hst.1, List.length_append, List.length_singleton]
        rcases hopen with h0 | hlt
        · rw [hLim] at h0; omega
        · rw [hLim] at hlt; omega
      have heq : st1.sent.length = st1.Pages.length := by
        rw [hst.1, hst.2, List.length_append, List.length_append, h2]
        rfl
      simpa [stateAfter, hit] using ih st1 hlt heq

/-- With a positive limit `L`, the loop started `d` Pages below it exits within `d`
passes. -/
theorem runLoop_terminates (lib : Lib) (u : User σ) (L : Nat) (hLim : u.Limit = (L : Int)) :
    ∀ (d : Nat) (st : LoopState σ), st.Pages.length + (d + 1) = L →
      ∃ r, runLoop lib u (d + 1) st = some r := by
  intro d
  induction d with
  | zero =>
    intro st hst
    cases hit : iteration lib u st with
    | exit st1 out => exact ⟨_, runLoop_exit lib u st st1 out 0 hit⟩
    | next st1 =>
      rcases iteration_next_limit lib u st st1 hit with h0 | hlt
      · rw [hLim] at h0; omega
      · rw [hLim] at hlt; omega
  | succ d ih =>
    intro st hst
    cases hit : iteration lib u st with
    | exit st1 out => exact ⟨_, runLoop_exit lib u st st1 out (d + 1) hit⟩
    | next st1 =>
      rw [runLoop_next lib u st st1 (d + 1) hit]
      have hst1 := iteration_state lib u st
      rw [hit] at hst1
      simp only [Step.state] at hst1
      apply ih
      rw [hst1.1, List.length_append, List.length_singleton]
      omega

/-- Without limit and callback, a pass on a response that redirects without `Location`
leaves the request as it is and goes on. -/
theorem bareRedirect_iteration (st : LoopState Unit) :
    iteration goLib (plainUser bareRedirect 0) st = .next (hopState (plainUser bareRedirect 0) st) := by
  rw [iteration_ok goLib (plainUser bareRedirect 0) st (plainResponse 302 [] []) rfl (Or.inl rfl) rfl]
  exact resolve_redirect_empty goLib _ _ rfl rfl

theorem bareRedirect_forever : ∀ (fuel : Nat) (st : LoopState Unit),
    runLoop goLib (plainUser bareRedirect 0) fuel st = none := by
  intro fuel
  induction fuel with
  | zero => intro st; rfl
  | succ n ih =>
    intro st
    rw [runLoop_next goLib _ st _ n (bareRedirect_iteration st)]
    exact ih _

theorem bareRedirect_pages : ∀ (n : Nat) (st : LoopState Unit),
    (stateAfter goLib (plainUser bareRedirect 0) n st).Pages.length = st.Pages.length + n := by
  intro n
  induction n with
  | zero => intro st; rfl
  | succ n ih =>
    intro st
    simp only [stateAfter, bareRedirect_iteration st]
    rw [ih]
    simp only [hopState, List.length_append, List.length_singleton]
    omega

theorem endlessRedirect_iteration (st : LoopState Unit) :
    iteration goLib (plainUser endlessRedirect 0) st =
      .next { hopState (plainUser endlessRedirect 0) st with
              req := getRequest "http://example.com/loop".toList } := by
  rw [iteration_ok goLib (plainUser endlessRedirect 0) st
    (plainResponse 302 [("Location".toList, ["http://example.com/loop".toList])] []) rfl
    (Or.inl rfl) rfl]
  exact resolve_redirect goLib _ _ "http://example.com/loop".toList rfl (by decide) (by decide)

theorem endlessRedirect_forever : ∀ (fuel : Nat) (st : LoopState Unit),
    runLoop goLib (plainUser endlessRedirect 0) fuel st = none := by
  intro fuel
  induction fuel with
  | zero => intro st; rfl
  | succ n ih =>
    intro st
    rw [runLoop_next goLib _ st _ n (endlessRedirect_iteration st)]
    exact ih _

/-- C10. With a hop limit `L > 0`, whatever the initial request, the transport and the
callback do, the loop of `User.Do` makes at most `L` passes: it exits within `L` passes,
and at no time are there more than `L` Pages or more than `L` requests sent.  With limit
0 there is no bound: against a server that answers every request with a 302 without
`Location`, and against one that redirects for ever, the loop never exits, and the Pages
grow by one in every pass. -/
theorem C10_loop_bound :
    (∀ (τ : Type) (lib : Lib) (u : User τ) (req : Request) (w : τ) (L : Nat),
      0 < L → u.Limit = (L : Int) →
        (∃ r, User.Do lib u req w L = some r) ∧
        ∀ n, (stateAfter lib u n (initState req w)).Pages.length ≤ L ∧
             (stateAfter lib u n (initState req w)).sent.length ≤ L) ∧
    (∀ req fuel, User.Do goLib (plainUser bareRedirect 0) req () fuel = none) ∧
    (∀ req fuel, User.Do goLib (plainUser endlessRedirect 0) req () fuel = none) ∧
    (∀ req n, (stateAfter goLib (plainUser bareRedirect 0) n (initState req ())).Pages.length
      = n) := by
  refine ⟨?_, ?_, ?_, ?_⟩
  · intro τ lib u req w L hL hLim
    constructor
    · obtain ⟨d, rfl⟩ : ∃ d, L = d + 1 := ⟨L - 1, by omega⟩
      exact runLoop_terminates lib u (d + 1) hLim d (initState req w) (by simp [initState])
    · intro n
      have h := stateAfter_bound lib u L hL hLim n (initState req w)
        (by simpa [initState] using hL) (by simp [initState])
      exact ⟨h.1, h.2 ▸ h.1⟩
  · intro req fuel
    exact bareRedirect_forever fuel _
  · intro req fuel
    exact endlessRedirect_forever fuel _
  · intro req n
    simpa [initState] using bareRedirect_pages n (initState req ())

/-- C10, at limit 2 against the server that redirects without `Location`. -/
theorem C10_loop_bound_witness :
    (∃ r, User.Do goLib (plainUser bareRedirect 2) (getRequest "http://example.com/".toList) () 2
      = some r) ∧
    ∀ n, (stateAfter goLib (plainUser bareRedirect 2) n
            (initState (getRequest "http://example.com/".toList) ())).Pages.length ≤ 2 ∧
         (stateAfter goLib (plainUser bareRedirect 2) n
            (initState (getRequest "http://example.com/".toList) ())).sent.length ≤ 2 :=
  C10_loop_bound.1 Unit goLib (plainUser bareRedirect 2)
    (getRequest "http://example.com/".toList) () 2 (by decide) rfl

/-! ## Terminal pages and the hop limit -/

theorem resolve_html_no_refresh (lib : Lib) (st : LoopState σ) (resp : Response)
    (h200 : resp.StatusCode = 200)
    (hct : lib.parseMediaType (headerGet resp.Header "Content-Type".toList) = some "text/html".toList)
    (hscan : htmlRefresh lib st.Current.ResponseBody = []) :
    resolve lib st resp = .exit st (.returned none) := by
  unfold resolve
  have hs : isRedirectStatus resp.StatusCode = false := by rw [h200]; rfl
  rw [hs]
  simp only [Bool.false_eq_true, if_false, h200, if_true, hct, hscan, ne_eq, not_true_eq_false]

theorem recordHop_body (req : Request) (r : ClientResult) (resp : Response)
    (h : r.resp = .ok resp) : (recordHop req r).ResponseBody = resp.Body := by
  unfold recordHop
  rw [h]
  dsimp only
  split <;> rfl

/-- C5, as the code has it.  With no callback or one that returns nil, a chase whose first
response is a 200 with media type `text/html` and a body without meta-refresh match
records exactly one Page; `User.Do` returns nil when the hop limit is 0 or at least 2,
and returns the "too many redirects (1)" error for every other limit. -/
theorem C5_terminal_html_page (lib : Lib) (u : User σ) (req : Request) (w : σ) (resp : Response)
    (hcb : ∀ cb, u.Callback = some cb → ∀ w p, (cb w p).1 = none)
    (hr : (u.Client w (withUserAgent u req)).1.resp = .ok resp)
    (h200 : resp.StatusCode = 200)
    (hct : lib.parseMediaType (headerGet resp.Header "Content-Type".toList) = some "text/html".toList)
    (hscan : htmlRefresh lib resp.Body = []) (fuel : Nat) :
    ∃ st, User.Do lib u req w (fuel + 1) =
        some (st, if u.Limit = 0 ∨ 1 < u.Limit then .returned none
                  else .returned (some (tooManyRedirects 1))) ∧
      st.Pages.length = 1 := by
  have hq := hopCallback_quiet u (initState req w) hcb
  refine ⟨hopState u (initState req w), ?_, by simp [hopState, initState]⟩
  apply runLoop_exit
  by_cases hl : u.Limit = 0 ∨ 1 < u.Limit
  · rw [if_pos hl]
    have hl1 : u.Limit = 0 ∨ ((initState req w).Pages.length : Int) + 1 < u.Limit := by
      simpa [initState] using hl
    rw [iteration_ok lib u _ resp hq hl1 hr]
    apply resolve_html_no_refresh lib _ resp h200 hct
    have : (hopState u (initState req w)).Current.ResponseBody = resp.Body :=
      recordHop_body _ _ resp hr
    rw [this]
    exact hscan
  · rw [if_neg hl]
    have h0 : u.Limit ≠ 0 := fun h => hl (Or.inl h)
    have h1 : u.Limit ≤ ((initState req w).Pages.length : Int) + 1 := by
      have : ¬ 1 < u.Limit := fun h => hl (Or.inr h)
      simp only [initState, List.length_nil]
      omega
    exact iteration_limit lib u _ hq h0 h1

/-- C5, as the code has it, at an empty HTML page and limit 2. -/
theorem C5_terminal_html_page_witness :
    ∃ st, User.Do goLib (plainUser (htmlPage "<html></html>".toList) 2)
        (getRequest "http://example.com/".toList) () 1 =
        some (st, if (plainUser (htmlPage "<html></html>".toList) 2).Limit = 0 ∨
                     1 < (plainUser (htmlPage "<html></html>".toList) 2).Limit
                  then .returned none else .returned (some (tooManyRedirects 1))) ∧
      st.Pages.length = 1 :=
  C5_terminal_html_page goLib (plainUser (htmlPage "<html></html>".toList) 2)
    (getRequest "http://example.com/".toList) ()
    (plainResponse 200 [("Content-Type".toList, ["text/html".toList])] "<html></html>".toList)
    (by intro cb h; cases h) rfl rfl (by decide) (by decide) 0

/-- C5 fails at hop limit 1: the first response is a 200 `text/html` page without
meta-refresh match, one Page is recorded, and `User.Do` returns the "too many redirects
(1)" error instead of nil. -/
theorem C5_counterexample_limit_one :
    goLib.parseMediaType (headerGet
      (plainResponse 200 [("Content-Type".toList, ["text/html".toList])]
        "<html></html>".toList).Header "Content-Type".toList) = some "text/html".toList ∧
    htmlRefresh goLib "<html></html>".toList = [] ∧
    (User.Do goLib (plainUser (htmlPage "<html></html>".toList) 1)
        (getRequest "http://example.com/".toList) () 1).map (fun r => (r.2, r.1.Pages.length)) =
      some (.returned (some "too many redirects (1)".toList), 1) := by
  decide

/-! ## Transport errors and redirects without target -/

/-- C2, on the chase of the specification's example: the first hop is redirected, the
transport fails on the second hop, the limit is 3 and there is no callback.  Two Pages are
recorded and the second has `Err` set and no response field, but `User.Do` does not
return nil: the response is nil and `switch resp.StatusCode` panics. -/
theorem C2_transport_error_panics :
    (User.Do goLib (plainUser failingSecondHop 3) (getRequest "http://example.com/a".toList) () 3).map
        (fun r => (r.2, r.1.Pages.map Page.RequestUrl)) =
      some (.nilDereference, ["http://example.com/a".toList, "http://example.com/b".toList]) ∧
    (User.Do goLib (plainUser failingSecondHop 3) (getRequest "http://example.com/a".toList) () 3).map
        (fun r => r.1.Pages.map Page.Err) =
      some [none, some "dial tcp: connection refused".toList] ∧
    (User.Do goLib (plainUser failingSecondHop 3) (getRequest "http://example.com/a".toList) () 3).map
        (fun r => r.1.Pages.map fun p => (p.StatusCode, p.ResponseHeader.length, p.ResponseBody)) =
      some [(302, 1, []), (0, 0, [])] := by
  decide

/-- C3, on a first response 302 without `Location` header and limit 3: the chase does not
stop with one Page and nil, the same request is sent three times and `User.Do` returns
the "too many redirects (3)" error. -/
theorem C3_redirect_without_location_repeats :
    (User.Do goLib (plainUser bareRedirect 3) (getRequest "http://example.com/a".toList) () 3).map
        (fun r => (r.2, r.1.sent.map Request.URL, r.1.Pages.length)) =
      some (.returned (some "too many redirects (3)".toList),
        ["http://example.com/a".toList, "http://example.com/a".toList,
         "http://example.com/a".toList], 3) := by
  decide

/-! ## The next request -/

/-- C7 fails: for the request to `http://example.com/a` answered by a 301 with
`Location: /relative`, the second request sent is a GET to `/relative`, not to
`http://example.com/relative`. -/
theorem C7_counterexample_relative_location :
    (User.Do goLib (plainUser relativeRedirect 2) (getRequest "http://example.com/a".toList) () 2).map
        (fun r => r.1.sent.map fun q => (q.Method, q.URL)) =
      some [("GET".toList, "http://example.com/a".toList), ("GET".toList, "/relative".toList)] ∧
    "/relative".toList ≠ "http://example.com/relative".toList := by
  decide

/-- C7, as the code has it.  For a 301 response with header `Location: /relative`,
whatever the request that produced it, the next request `User.Do` builds is the GET
request that `http.NewRequest` makes of the raw header value `/relative` alone (callback
not aborting, limit not reached). -/
theorem C7_next_request_raw_location (u : User σ) (st : LoopState σ) (resp : Response)
    (hr : (hopResult u st).1.resp = .ok resp) (h301 : resp.StatusCode = 301)
    (hloc : headerGet resp.Header "Location".toList = "/relative".toList)
    (hcb : (hopCallback u st).1 = none)
    (hl : u.Limit = 0 ∨ (st.Pages.length : Int) + 1 < u.Limit) :
    iteration goLib u st = .next { hopState u st with req := getRequest "/relative".toList } := by
  rw [iteration_ok goLib u st resp hcb hl hr]
  exact resolve_redirect goLib _ resp "/relative".toList (by rw [h301]; rfl)
    (by rw [hloc]; decide) (by rw [hloc]; decide)

/-- C7, as the code has it, at the request to `http://example.com/a`. -/
theorem C7_next_request_raw_location_witness :
    iteration goLib (plainUser relativeRedirect 0)
        (initState (getRequest "http://example.com/a".toList) ()) =
      .next { hopState (plainUser relativeRedirect 0)
                (initState (getRequest "http://example.com/a".toList) ()) with
              req := getRequest "/relative".toList } :=
  C7_next_request_raw_location (plainUser relativeRedirect 0)
    (initState (getRequest "http://example.com/a".toList) ())
    (plainResponse 301 [("Location".toList, ["/relative".toList])] [])
    rfl rfl rfl rfl (Or.inl rfl)

/-- C4 fails: for the body `<meta http-equiv="refresh" content="0;
http://example.com/next">`, whose meta tag has no trailing slash, `htmlRefresh` returns the
empty string, and a 200 `text/html` response with this body ends the chase after the one
request, with nil. -/
theorem C4_counterexample_open_meta_tag :
    htmlRefresh goLib metaOpen = [] ∧
    (User.Do goLib (plainUser (htmlPage metaOpen) 0) (getRequest "http://example.com/".toList) () 2).map
        (fun r => (r.2, r.1.sent.map Request.URL)) =
      some (.returned none, ["http://example.com/".toList]) := by
  decide

theorem resolve_html_refresh (lib : Lib) (st : LoopState σ) (resp : Response) (loc target : Str)
    (h200 : resp.StatusCode = 200)
    (hct : lib.parseMediaType (headerGet resp.Header "Content-Type".toList) = some "text/html".toList)
    (hscan : htmlRefresh lib st.Current.ResponseBody = loc) (hloc : loc ≠ [])
    (hp : lib.urlParse loc = some target) :
    resolve lib st resp =
      .next { st with req := { Method := "GET".toList, URL := target,
                               Proto := "HTTP/1.1".toList, Header := [] } } := by
  unfold resolve NewRequest
  have hs : isRedirectStatus resp.StatusCode = false := by rw [h200]; rfl
  rw [hs, hscan]
  simp only [Bool.false_eq_true, if_false, h200, if_true, hct, ne_eq, not_true_eq_false, hloc,
    not_false_eq_true, hp, Option.map_some']

/-- C4, as the code has it.  For the body `<meta http-equiv="refresh" content="0;
http://example.com/next"/>`, whose meta tag is self-closing, `htmlRefresh` returns
`http://example.com/next`, and a 200 response with this body for whose `Content-Type`
`mime.ParseMediaType` returns `text/html` without error makes `User.Do` send a GET request
to `http://example.com/next` as its next hop (callback not aborting, limit not reached).
The library is arbitrary but for two fixed inputs: it tokenizes this body as the
tokenizer model does and it parses this URL to itself. -/
theorem C4_self_closing_meta_refresh (lib : Lib) (u : User σ) (st : LoopState σ)
    (resp : Response)
    (htok : lib.tokenize metaSelfClosing = goTokenize metaSelfClosing)
    (hurl : lib.urlParse "http://example.com/next".toList = some "http://example.com/next".toList)
    (hr : (hopResult u st).1.resp = .ok resp) (h200 : resp.StatusCode = 200)
    (hct : lib.parseMediaType (headerGet resp.Header "Content-Type".toList) =
      some "text/html".toList)
    (hbody : resp.Body = metaSelfClosing)
    (hcb : (hopCallback u st).1 = none)
    (hl : u.Limit = 0 ∨ (st.Pages.length : Int) + 1 < u.Limit) :
    htmlRefresh lib metaSelfClosing = "http://example.com/next".toList ∧
    iteration lib u st =
      .next { hopState u st with req := getRequest "http://example.com/next".toList } := by
  have hscan : htmlRefresh lib metaSelfClosing = "http://example.com/next".toList := by
    unfold htmlRefresh
    rw [htok]
    decide
  refine ⟨hscan, ?_⟩
  rw [iteration_ok lib u st resp hcb hl hr]
  have hb : (hopState u st).Current.ResponseBody = metaSelfClosing := by
    rw [← hbody]
    exact recordHop_body _ _ resp hr
  exact resolve_html_refresh lib _ resp _ "http://example.com/next".toList h200 hct
    (hb.symm ▸ hscan) (by decide) hurl

/-- C4, as the code has it, at a server that sends the self-closing element with
`Content-Type: text/html`. -/
theorem C4_self_closing_meta_refresh_witness :
    htmlRefresh goLib metaSelfClosing = "http://example.com/next".toList ∧
    iteration goLib (plainUser (htmlPage metaSelfClosing) 0)
        (initState (getRequest "http://example.com/".toList) ()) =
      .next { hopState (plainUser (htmlPage metaSelfClosing) 0)
                (initState (getRequest "http://example.com/".toList) ()) with
              req := getRequest "http://example.com/next".toList } :=
  C4_self_closing_meta_refresh goLib (plainUser (htmlPage metaSelfClosing) 0)
    (initState (getRequest "http://example.com/".toList) ())
    (plainResponse 200 [("Content-Type".toList, ["text/html".toList])] metaSelfClosing)
    rfl (by decide) rfl rfl (by decide) rfl rfl (Or.inl rfl)

/-! ## The meta-refresh scan -/

theorem span_front (p : Char → Bool) (l tail : Str) (hl : ∀ c ∈ l, p c = true)
    (hr : ∀ c ∈ tail.head?, p c = false) :
    (l ++ tail).dropWhile p = tail ∧ (l ++ tail).takeWhile p = l := by
  constructor
  · rw [List.dropWhile_append_of_pos hl]
    cases tail with
    | nil => rfl
    | cons c r =>
      have : p c = false := hr c (by simp)
      simp [List.dropWhile_cons, this]
  · rw [List.takeWhile_append_of_pos hl]
    cases tail with
    | nil => simp
    | cons c r =>
      have : p c = false := hr c (by simp)
      simp [List.takeWhile_cons, this]

theorem split_span (p : Char → Bool) (l : Str) :
    l = l.takeWhile p ++ l.dropWhile p ∧ (∀ c ∈ l.takeWhile p, p c = true) ∧
      (∀ c ∈ (l.dropWhile p).head?, p c = false) := by
  refine ⟨(List.takeWhile_append_dropWhile p l).symm, fun c hc => List.mem_takeWhile_imp hc, ?_⟩
  intro c hc
  have h := List.head?_dropWhile_not p l
  rw [Option.mem_def] at hc
  rw [hc] at h
  exact h

theorem isSpace_not_digit (c : Char) (h : isDigit c = true) : isSpace c = false := by
  by_contra hs
  simp only [Bool.not_eq_false] at hs
  simp only [isSpace, Bool.or_eq_true, beq_iff_eq] at hs
  rcases hs with (((rfl | rfl) | rfl) | rfl) | rfl <;> revert h <;> decide

theorem isDigit_not_space (c : Char) (h : isSpace c = true) : isDigit c = false := by
  by_contra hd
  simp only [Bool.not_eq_false] at hd
  rw [isSpace_not_digit c hd] at h
  exact Bool.false_ne_true h

/-- A content value of the specified form is matched, and the submatch is its target. -/
theorem refreshMatch_of_form (content t : Str) (h : RefreshForm content t) :
    refreshMatch content = some t := by
  obtain ⟨w1, ds, w2, w3, more, rfl, hw1, hds, hdig, hw2, hw3, ht, htn, hmore⟩ := h
  obtain ⟨d, ds1, rfl⟩ := List.exists_cons_of_ne_nil hds
  obtain ⟨c, t1, rfl⟩ := List.exists_cons_of_ne_nil ht
  have e0 : w1 ++ (d :: ds1) ++ w2 ++ [';'] ++ w3 ++ (c :: t1) ++ more =
      w1 ++ ((d :: ds1) ++ (w2 ++ (';' :: (w3 ++ ((c :: t1) ++ more))))) := by
    simp [List.append_assoc]
  have hd : isDigit d = true := hdig d (by simp)
  have hc : isSpace c = false := htn c (by simp)
  have h1 := (span_front isSpace w1 ((d :: ds1) ++ (w2 ++ (';' :: (w3 ++ ((c :: t1) ++ more)))))
    hw1 (by intro x hx; simp at hx; subst hx; exact isSpace_not_digit _ hd)).1
  have h2 := span_front isDigit (d :: ds1) (w2 ++ (';' :: (w3 ++ ((c :: t1) ++ more)))) hdig
    (by
      intro x hx
      cases w2 with
      | nil => simp at hx; subst hx; decide
      | cons a w => simp at hx; subst hx; exact isDigit_not_space _ (hw2 _ (by simp)))
  have h3 := (span_front isSpace w2 (';' :: (w3 ++ ((c :: t1) ++ more))) hw2
    (by intro x hx; simp at hx; subst hx; decide)).1
  have h4 := (span_front isSpace w3 ((c :: t1) ++ more) hw3
    (by intro x hx; simp at hx; subst hx; exact hc)).1
  have h5 := (span_front (fun x => !isSpace x) (c :: t1) more
    (by intro x hx; simp [htn x hx]) (by intro x hx; simp [hmore x hx])).2
  unfold refreshMatch
  simp only [e0, h1, h2.1, h2.2, h3, h4, h5]
  simp

/-- Whatever the expression matches has the specified form. -/
theorem form_of_refreshMatch (content t : Str) (h : refreshMatch content = some t) :
    RefreshForm content t := by
  unfold refreshMatch at h
  dsimp only at h
  obtain ⟨e1, hw1, -⟩ := split_span isSpace content
  generalize content.dropWhile isSpace = s1 at h e1
  generalize content.takeWhile isSpace = w1 at e1 hw1
  obtain ⟨e2, hds, hs2⟩ := split_span isDigit s1
  generalize s1.takeWhile isDigit = ds at h e2 hds
  generalize s1.dropWhile isDigit = s2 at h e2 hs2
  obtain ⟨e3, hw2, -⟩ := split_span isSpace s2
  generalize s2.dropWhile isSpace = s2a at h e3
  generalize s2.takeWhile isSpace = w2 at e3 hw2
  split_ifs at h with hne
  split at h
  · rename_i s3
    obtain ⟨e4, hw3, hs4⟩ := split_span isSpace s3
    generalize s3.dropWhile isSpace = s4 at h e4 hs4
    generalize s3.takeWhile isSpace = w3 at e4 hw3
    obtain ⟨e5, ht, hmore⟩ := split_span (fun c => !isSpace c) s4
    generalize s4.takeWhile (fun c => !isSpace c) = t0 at h e5 ht
    generalize s4.dropWhile (fun c => !isSpace c) = more at e5 hmore
    split_ifs at h with htne
    cases h
    refine ⟨w1, ds, w2, w3, more, ?_, hw1, hne, hds, hw2, hw3, htne, ?_, ?_⟩
    · subst e5
      subst e4
      subst e3
      subst e2
      subst e1
      simp [List.append_assoc]
    · intro c hc
      simpa using ht c hc
    · intro c hc
      simpa using hmore c hc
  · cases h

/-- Attribute names that occur at most once get the same value from the loop over
`TagAttr` and from a lookup. -/
theorem tagAttrs_lookup (attrs : List (Str × Str)) :
    ∀ acc : Str × Str,
      (attrs.map Prod.fst).count "http-equiv".toList ≤ 1 →
      (attrs.map Prod.fst).count "content".toList ≤ 1 →
      tagAttrs attrs acc =
        ((attrs.lookup "http-equiv".toList).getD acc.1,
         (attrs.lookup "content".toList).getD acc.2) := by
  induction attrs with
  | nil => intro acc _ _; rfl
  | cons kv more ih =>
    intro acc h1 h2
    obtain ⟨k, v⟩ := kv
    obtain ⟨a1, a2⟩ := acc
    simp only [List.map_cons, List.count_cons] at h1 h2
    have ih1 := ih (if k = "http-equiv".toList then v else a1,
      if k = "content".toList then v else a2) (by omega) (by omega)
    simp only [tagAttrs]
    rw [ih1]
    have none_of_count : ∀ key : Str, (more.map Prod.fst).count key = 0 →
        more.lookup key = none := by
      intro key hk
      rw [List.lookup_eq_none_iff]
      intro p hp
      have : key ∉ more.map Prod.fst := List.count_eq_zero.mp hk
      simp only [bne_iff_ne, ne_eq]
      intro hkey
      exact this (List.mem_map.mpr ⟨p, hp, hkey.symm⟩)
    congr 1
    · by_cases hk : k = "http-equiv".toList
      · subst hk
        have : (more.map Prod.fst).count "http-equiv".toList = 0 := by
          simp only [beq_self_eq_true, if_true] at h1
          omega
        rw [none_of_count _ this]
        simp [List.lookup_cons]
      · have : ("http-equiv".toList == k) = false := by
          simpa using fun h => hk h.symm
        simp only [hk, if_false, List.lookup_cons, this]
    · by_cases hk : k = "content".toList
      · subst hk
        have : (more.map Prod.fst).count "content".toList = 0 := by
          simp only [beq_self_eq_true, if_true] at h2
          omega
        rw [none_of_count _ this]
        simp [List.lookup_cons]
      · have : ("content".toList == k) = false := by
          simpa using fun h => hk h.symm
        simp only [hk, if_false, List.lookup_cons, this]

theorem scanTokens_single_meta (attrs : List (Str × Str)) (httpEquiv content : Str)
    (htag : tagAttrs attrs ([], []) = (httpEquiv, content))
    (hrefresh : toLower httpEquiv = "refresh".toList) :
    scanTokens [metaToken attrs] = (refreshMatch content).getD [] := by
  simp only [scanTokens, metaToken, htag, hrefresh]
  cases refreshMatch content <;> simp

/-- C9. Let the body consist of one self-closing `meta` element (the tokenizer yields
that one token) in which `http-equiv` and `content` occur at most once and the value of
`http-equiv` equals `refresh` in some letter case.  If the value of `content` has the
form white space, digits, white space, semicolon, white space, target `t`, then
`htmlRefresh` returns exactly `t`; if it has that form for no `t`, or if there is no
`content` attribute, `htmlRefresh` returns the empty string. -/
theorem C9_single_meta_refresh (lib : Lib) (body : Str) (attrs : List (Str × Str))
    (httpEquiv : Str) (htok : lib.tokenize body = [metaToken attrs])
    (h1 : (attrs.map Prod.fst).count "http-equiv".toList ≤ 1)
    (h2 : (attrs.map Prod.fst).count "content".toList ≤ 1)
    (hhe : attrs.lookup "http-equiv".toList = some httpEquiv)
    (hrefresh : toLower httpEquiv = "refresh".toList) :
    (∀ content t, attrs.lookup "content".toList = some content → RefreshForm content t →
      htmlRefresh lib body = t) ∧
    (∀ content, attrs.lookup "content".toList = some content →
      (¬ ∃ t, RefreshForm content t) → htmlRefresh lib body = []) ∧
    (attrs.lookup "content".toList = none → htmlRefresh lib body = []) := by
  have htag := tagAttrs_lookup attrs ([], []) h1 h2
  rw [hhe] at htag
  refine ⟨?_, ?_, ?_⟩
  · intro content t hc hform
    rw [hc] at htag
    unfold htmlRefresh
    rw [htok, scanTokens_single_meta attrs httpEquiv content htag hrefresh,
      refreshMatch_of_form content t hform]
    rfl
  · intro content hc hform
    rw [hc] at htag
    unfold htmlRefresh
    rw [htok, scanTokens_single_meta attrs httpEquiv content htag hrefresh]
    cases hm : refreshMatch content with
    | none => rfl
    | some t => exact absurd ⟨t, form_of_refreshMatch content t hm⟩ hform
  · intro hc
    rw [hc] at htag
    unfold htmlRefresh
    rw [htok, scanTokens_single_meta attrs httpEquiv [] htag hrefresh]
    rfl

/-- C9, at `<META HTTP-EQUIV="Refresh" CONTENT=" 5 ; /next/page  now"/>`: the target is
`/next/page`. -/
theorem C9_single_meta_refresh_witness :
    htmlRefresh goLib metaMixedCase = "/next/page".toList :=
  (C9_single_meta_refresh goLib metaMixedCase
    [("http-equiv".toList, "Refresh".toList), ("content".toList, " 5 ; /next/page  now".toList)]
    "Refresh".toList (by decide) (by decide) (by decide) (by decide) (by decide)).1
    " 5 ; /next/page  now".toList "/next/page".toList (by decide)
    ⟨" ".toList, "5".toList, " ".toList, " ".toList, "  now".toList, by decide, by decide,
      by decide, by decide, by decide, by decide, by decide, by decide, by decide⟩

end Chaselink
